import Mathlib

/-!
Verification of the type-mapping and FFI-safety layer of xla-rs
(src/src/wrappers/mod.rs), shallowly embedded in Lean 4.

The Rust enums `PrimitiveType` and `ElementType`, the conversions
`PrimitiveType::element_type` and `ElementType::primitive_type`, the size
table `ElementType::element_size_in_bytes`, the derived `FromPrimitive`
decoding, and the ownership-transfer helper `c_ptr_to_string` are embedded
as executable Lean definitions, and the specified properties are proved
about them.
-/

namespace XlaRs

/-- The primitive types supported by XLA, from `pub enum PrimitiveType` in
src/src/wrappers/mod.rs.  The Rust enum fixes an explicit numeric
discriminant for each variant; those are embedded separately in
`primitiveTypeDiscriminant`. -/
inductive PrimitiveType where
  | Invalid
  | Pred
  | S8
  | S16
  | S32
  | S64
  | U8
  | U16
  | U32
  | U64
  | F16
  | F32
  | Bf16
  | F64
  | C64
  | C128
  | Tuple
  | OpaqueType
  | Token
  deriving DecidableEq, Repr, Fintype

/-- The explicit numeric discriminants declared on the Rust `PrimitiveType`
enum (`Invalid = 0`, `Pred = 1`, ..., `Token = 17`). -/
def primitiveTypeDiscriminant : PrimitiveType → Int
  | .Invalid => 0
  | .Pred => 1
  | .S8 => 2
  | .S16 => 3
  | .S32 => 4
  | .S64 => 5
  | .U8 => 6
  | .U16 => 7
  | .U32 => 8
  | .U64 => 9
  | .F16 => 10
  | .F32 => 11
  | .Bf16 => 16
  | .F64 => 12
  | .C64 => 15
  | .C128 => 18
  | .Tuple => 13
  | .OpaqueType => 14
  | .Token => 17

/-- `pub enum ElementType` from src/src/wrappers/mod.rs: the data-bearing
subset of `PrimitiveType`. -/
inductive ElementType where
  | Pred
  | S8
  | S16
  | S32
  | S64
  | U8
  | U16
  | U32
  | U64
  | F16
  | F32
  | Bf16
  | F64
  | C64
  | C128
  deriving DecidableEq, Repr, Fintype

/-- The error enum of the crate, restricted to the variant used by this
layer: `Error::NotAnElementType { got: PrimitiveType }`. -/
inductive Error where
  | NotAnElementType (got : PrimitiveType)
  deriving DecidableEq, Repr

/-- `PrimitiveType::element_type` from src/src/wrappers/mod.rs: the fallible
conversion from a wire tag to a data-bearing element type.  Rust's
`Result<ElementType>` is embedded as `Except Error ElementType`. -/
def PrimitiveType.element_type : PrimitiveType → Except Error ElementType
  | .Pred => .ok .Pred
  | .S8 => .ok .S8
  | .S16 => .ok .S16
  | .S32 => .ok .S32
  | .S64 => .ok .S64
  | .U8 => .ok .U8
  | .U16 => .ok .U16
  | .U32 => .ok .U32
  | .U64 => .ok .U64
  | .F16 => .ok .F16
  | .F32 => .ok .F32
  | .Bf16 => .ok .Bf16
  | .F64 => .ok .F64
  | .C64 => .ok .C64
  | .C128 => .ok .C128
  | .Invalid => .error (.NotAnElementType .Invalid)
  | .Tuple => .error (.NotAnElementType .Tuple)
  | .OpaqueType => .error (.NotAnElementType .OpaqueType)
  | .Token => .error (.NotAnElementType .Token)

/-- `ElementType::element_size_in_bytes` from src/src/wrappers/mod.rs.
Rust's `usize` result is embedded as `Nat`. -/
def ElementType.element_size_in_bytes : ElementType → Nat
  | .Pred => 1
  | .S8 => 1
  | .S16 => 2
  | .S32 => 4
  | .S64 => 8
  | .U8 => 1
  | .U16 => 2
  | .U32 => 4
  | .U64 => 8
  | .F16 => 2
  | .F32 => 4
  | .Bf16 => 2
  | .F64 => 8
  | .C64 => 8
  | .C128 => 16

/-- `ElementType::primitive_type` from src/src/wrappers/mod.rs: the total
conversion back to the wire tag. -/
def ElementType.primitive_type : ElementType → PrimitiveType
  | .Pred => .Pred
  | .S8 => .S8
  | .S16 => .S16
  | .S32 => .S32
  | .S64 => .S64
  | .U8 => .U8
  | .U16 => .U16
  | .U32 => .U32
  | .U64 => .U64
  | .F16 => .F16
  | .F32 => .F32
  | .Bf16 => .Bf16
  | .F64 => .F64
  | .C64 => .C64
  | .C128 => .C128

/-- The decoding generated by `#[derive(FromPrimitive)]` on `PrimitiveType`
(num_derive): an integer maps to the variant with that exact declared
discriminant, and to `None` otherwise. -/
def primitiveTypeFromInt (n : Int) : Option PrimitiveType :=
  if n = 0 then some .Invalid
  else if n = 1 then some .Pred
  else if n = 2 then some .S8
  else if n = 3 then some .S16
  else if n = 4 then some .S32
  else if n = 5 then some .S64
  else if n = 6 then some .U8
  else if n = 7 then some .U16
  else if n = 8 then some .U32
  else if n = 9 then some .U64
  else if n = 10 then some .F16
  else if n = 11 then some .F32
  else if n = 16 then some .Bf16
  else if n = 12 then some .F64
  else if n = 15 then some .C64
  else if n = 18 then some .C128
  else if n = 13 then some .Tuple
  else if n = 14 then some .OpaqueType
  else if n = 17 then some .Token
  else none

/-- A `PrimitiveType` tag is structural (or invalid) when it is one of the
four tags that carry no element data. -/
def PrimitiveType.isStructuralOrInvalid (t : PrimitiveType) : Prop :=
  t = .Invalid ∨ t = .Tuple ∨ t = .OpaqueType ∨ t = .Token

instance (t : PrimitiveType) : Decidable t.isStructuralOrInvalid := by
  unfold PrimitiveType.isStructuralOrInvalid
  infer_instance

end XlaRs

namespace XlaRs

/-- C1: the numeric discriminants of `PrimitiveType` are exactly the fixed
wire values Invalid=0, Pred=1, S8=2, S16=3, S32=4, S64=5, U8=6, U16=7,
U32=8, U64=9, F16=10, F32=11, F64=12, Tuple=13, OpaqueType=14, C64=15,
Bf16=16, Token=17, C128=18; the data kinds (those whose `element_type`
conversion succeeds) occupy 1-12, 15, 16, 18, and the structural kinds
occupy 13, 14, 17. -/
theorem primitiveType_discriminants_fixed :
    primitiveTypeDiscriminant .Invalid = 0 ∧
    primitiveTypeDiscriminant .Pred = 1 ∧
    primitiveTypeDiscriminant .S8 = 2 ∧
    primitiveTypeDiscriminant .S16 = 3 ∧
    primitiveTypeDiscriminant .S32 = 4 ∧
    primitiveTypeDiscriminant .S64 = 5 ∧
    primitiveTypeDiscriminant .U8 = 6 ∧
    primitiveTypeDiscriminant .U16 = 7 ∧
    primitiveTypeDiscriminant .U32 = 8 ∧
    primitiveTypeDiscriminant .U64 = 9 ∧
    primitiveTypeDiscriminant .F16 = 10 ∧
    primitiveTypeDiscriminant .F32 = 11 ∧
    primitiveTypeDiscriminant .F64 = 12 ∧
    primitiveTypeDiscriminant .Tuple = 13 ∧
    primitiveTypeDiscriminant .OpaqueType = 14 ∧
    primitiveTypeDiscriminant .C64 = 15 ∧
    primitiveTypeDiscriminant .Bf16 = 16 ∧
    primitiveTypeDiscriminant .Token = 17 ∧
    primitiveTypeDiscriminant .C128 = 18 ∧
    (∀ t : PrimitiveType, t ≠ .Invalid → ¬ t.isStructuralOrInvalid →
      ((1 ≤ primitiveTypeDiscriminant t ∧ primitiveTypeDiscriminant t ≤ 12) ∨
        primitiveTypeDiscriminant t = 15 ∨ primitiveTypeDiscriminant t = 16 ∨
        primitiveTypeDiscriminant t = 18)) ∧
    (∀ t : PrimitiveType, t ≠ .Invalid → t.isStructuralOrInvalid →
      (primitiveTypeDiscriminant t = 13 ∨ primitiveTypeDiscriminant t = 14 ∨
        primitiveTypeDiscriminant t = 17)) := by
  refine ⟨rfl, rfl, rfl, rfl, rfl, rfl, rfl, rfl, rfl, rfl, rfl, rfl, rfl, rfl,
    rfl, rfl, rfl, rfl, rfl, ?_, ?_⟩ <;> decide

/-- C2: for every tag in {Invalid, Tuple, OpaqueType, Token},
`PrimitiveType::element_type` returns the recoverable error
`NotAnElementType` carrying the tag itself, as an ordinary result value
(the embedding returns `Except.error`, never diverges). -/
theorem element_type_structural_error (t : PrimitiveType)
    (h : t.isStructuralOrInvalid) :
    t.element_type = Except.error (Error.NotAnElementType t) := by
  revert h
  cases t <;>
    simp [PrimitiveType.isStructuralOrInvalid, PrimitiveType.element_type]

theorem element_type_structural_error_witness :
    PrimitiveType.Tuple.isStructuralOrInvalid ∧
      PrimitiveType.Tuple.element_type =
        Except.error (Error.NotAnElementType PrimitiveType.Tuple) :=
  ⟨by decide, element_type_structural_error PrimitiveType.Tuple (by decide)⟩

/-- C3: for every `ElementType` value `e`, converting to the wire tag via
`ElementType::primitive_type` and back via `PrimitiveType::element_type`
succeeds and yields exactly `e`. -/
theorem element_type_roundtrip (e : ElementType) :
    e.primitive_type.element_type = Except.ok e := by
  cases e <;> rfl

/-- C4: for every data-bearing tag `t` (every tag outside
{Invalid, Tuple, OpaqueType, Token}), `PrimitiveType::element_type` succeeds
and `ElementType::primitive_type` of the result is exactly `t`. -/
theorem primitive_type_roundtrip (t : PrimitiveType)
    (h : ¬ t.isStructuralOrInvalid) :
    ∃ e : ElementType, t.element_type = Except.ok e ∧ e.primitive_type = t := by
  revert h
  cases t <;>
    simp [PrimitiveType.isStructuralOrInvalid, PrimitiveType.element_type,
      ElementType.primitive_type]

theorem primitive_type_roundtrip_witness :
    ¬ PrimitiveType.Pred.isStructuralOrInvalid ∧
      ∃ e : ElementType, PrimitiveType.Pred.element_type = Except.ok e ∧
        e.primitive_type = PrimitiveType.Pred :=
  ⟨by decide, primitive_type_roundtrip PrimitiveType.Pred (by decide)⟩

/-- C5: `element_size_in_bytes` returns exactly Pred=1, S8=1, S16=2, S32=4,
S64=8, U8=1, U16=2, U32=4, U64=8, F16=2, F32=4, Bf16=2, F64=8, C64=8,
C128=16, exhaustively over the 15 variants. -/
theorem element_size_in_bytes_table :
    ElementType.Pred.element_size_in_bytes = 1 ∧
    ElementType.S8.element_size_in_bytes = 1 ∧
    ElementType.S16.element_size_in_bytes = 2 ∧
    ElementType.S32.element_size_in_bytes = 4 ∧
    ElementType.S64.element_size_in_bytes = 8 ∧
    ElementType.U8.element_size_in_bytes = 1 ∧
    ElementType.U16.element_size_in_bytes = 2 ∧
    ElementType.U32.element_size_in_bytes = 4 ∧
    ElementType.U64.element_size_in_bytes = 8 ∧
    ElementType.F16.element_size_in_bytes = 2 ∧
    ElementType.F32.element_size_in_bytes = 4 ∧
    ElementType.Bf16.element_size_in_bytes = 2 ∧
    ElementType.F64.element_size_in_bytes = 8 ∧
    ElementType.C64.element_size_in_bytes = 8 ∧
    ElementType.C128.element_size_in_bytes = 16 := by
  decide

/-- C6: decoding an integer through the derived `FromPrimitive` conversion
yields `some` of the variant whose declared discriminant is that integer
when one exists, and `none` for every other integer; no integer is silently
mapped to a default variant. -/
theorem primitiveTypeFromInt_exact :
    (∀ t : PrimitiveType, primitiveTypeFromInt (primitiveTypeDiscriminant t) = some t) ∧
    (∀ n : Int, ∀ t : PrimitiveType,
      primitiveTypeFromInt n = some t → primitiveTypeDiscriminant t = n) ∧
    (∀ n : Int, (∀ t : PrimitiveType, primitiveTypeDiscriminant t ≠ n) →
      primitiveTypeFromInt n = none) := by
  refine ⟨by decide, ?_, ?_⟩
  · intro n t h
    unfold primitiveTypeFromInt at h
    by_cases e0 : n = 0
    · rw [if_pos e0] at h; injection h with h; subst h; exact e0.symm
    rw [if_neg e0] at h
    by_cases e1 : n = 1
    · rw [if_pos e1] at h; injection h with h; subst h; exact e1.symm
    rw [if_neg e1] at h
    by_cases e2 : n = 2
    · rw [if_pos e2] at h; injection h with h; subst h; exact e2.symm
    rw [if_neg e2] at h
    by_cases e3 : n = 3
    · rw [if_pos e3] at h; injection h with h; subst h; exact e3.symm
    rw [if_neg e3] at h
    by_cases e4 : n = 4
    · rw [if_pos e4] at h; injection h with h; subst h; exact e4.symm
    rw [if_neg e4] at h
    by_cases e5 : n = 5
    · rw [if_pos e5] at h; injection h with h; subst h; exact e5.symm
    rw [if_neg e5] at h
    by_cases e6 : n = 6
    · rw [if_pos e6] at h; injection h with h; subst h; exact e6.symm
    rw [if_neg e6] at h
    by_cases e7 : n = 7
    · rw [if_pos e7] at h; injection h with h; subst h; exact e7.symm
    rw [if_neg e7] at h
    by_cases e8 : n = 8
    · rw [if_pos e8] at h; injection h with h; subst h; exact e8.symm
    rw [if_neg e8] at h
    by_cases e9 : n = 9
    · rw [if_pos e9] at h; injection h with h; subst h; exact e9.symm
    rw [if_neg e9] at h
    by_cases e10 : n = 10
    · rw [if_pos e10] at h; injection h with h; subst h; exact e10.symm
    rw [if_neg e10] at h
    by_cases e11 : n = 11
    · rw [if_pos e11] at h; injection h with h; subst h; exact e11.symm
    rw [if_neg e11] at h
    by_cases e16 : n = 16
    · rw [if_pos e16] at h; injection h with h; subst h; exact e16.symm
    rw [if_neg e16] at h
    by_cases e12 : n = 12
    · rw [if_pos e12] at h; injection h with h; subst h; exact e12.symm
    rw [if_neg e12] at h
    by_cases e15 : n = 15
    · rw [if_pos e15] at h; injection h with h; subst h; exact e15.symm
    rw [if_neg e15] at h
    by_cases e18 : n = 18
    · rw [if_pos e18] at h; injection h with h; subst h; exact e18.symm
    rw [if_neg e18] at h
    by_cases e13 : n = 13
    · rw [if_pos e13] at h; injection h with h; subst h; exact e13.symm
    rw [if_neg e13] at h
    by_cases e14 : n = 14
    · rw [if_pos e14] at h; injection h with h; subst h; exact e14.symm
    rw [if_neg e14] at h
    by_cases e17 : n = 17
    · rw [if_pos e17] at h; injection h with h; subst h; exact e17.symm
    rw [if_neg e17] at h
    exact Option.noConfusion h
  · intro n h
    have g0 : ¬ n = (0 : Int) := fun he => h .Invalid he.symm
    have g1 : ¬ n = (1 : Int) := fun he => h .Pred he.symm
    have g2 : ¬ n = (2 : Int) := fun he => h .S8 he.symm
    have g3 : ¬ n = (3 : Int) := fun he => h .S16 he.symm
    have g4 : ¬ n = (4 : Int) := fun he => h .S32 he.symm
    have g5 : ¬ n = (5 : Int) := fun he => h .S64 he.symm
    have g6 : ¬ n = (6 : Int) := fun he => h .U8 he.symm
    have g7 : ¬ n = (7 : Int) := fun he => h .U16 he.symm
    have g8 : ¬ n = (8 : Int) := fun he => h .U32 he.symm
    have g9 : ¬ n = (9 : Int) := fun he => h .U64 he.symm
    have g10 : ¬ n = (10 : Int) := fun he => h .F16 he.symm
    have g11 : ¬ n = (11 : Int) := fun he => h .F32 he.symm
    have g12 : ¬ n = (12 : Int) := fun he => h .F64 he.symm
    have g13 : ¬ n = (13 : Int) := fun he => h .Tuple he.symm
    have g14 : ¬ n = (14 : Int) := fun he => h .OpaqueType he.symm
    have g15 : ¬ n = (15 : Int) := fun he => h .C64 he.symm
    have g16 : ¬ n = (16 : Int) := fun he => h .Bf16 he.symm
    have g17 : ¬ n = (17 : Int) := fun he => h .Token he.symm
    have g18 : ¬ n = (18 : Int) := fun he => h .C128 he.symm
    unfold primitiveTypeFromInt
    rw [if_neg g0, if_neg g1, if_neg g2, if_neg g3, if_neg g4, if_neg g5, if_neg g6, if_neg g7, if_neg g8, if_neg g9, if_neg g10, if_neg g11, if_neg g16, if_neg g12, if_neg g15, if_neg g18, if_neg g13, if_neg g14, if_neg g17]

end XlaRs

namespace XlaRs

/-- Modelled from the spec: the per-host-type `ArrayElement` implementations
are not under src/ (only the trait declaration is).  Following spec sections
3 and 4.3, each supported host scalar type (boolean predicate, signed and
unsigned integers at 8/16/32/64 bits, and the half, bfloat16, single and
double float widths) is bound at compile time to an `ElementType` and a byte
size. -/
inductive HostType where
  | bool
  | i8
  | i16
  | i32
  | i64
  | u8
  | u16
  | u32
  | u64
  | f16
  | bf16
  | f32
  | f64
  deriving DecidableEq, Repr, Fintype

/-- Modelled from the spec: the associated constant `ArrayElement::TY`, the
Element Type bound to each host scalar type. -/
def HostType.TY : HostType → ElementType
  | .bool => .Pred
  | .i8 => .S8
  | .i16 => .S16
  | .i32 => .S32
  | .i64 => .S64
  | .u8 => .U8
  | .u16 => .U16
  | .u32 => .U32
  | .u64 => .U64
  | .f16 => .F16
  | .bf16 => .Bf16
  | .f32 => .F32
  | .f64 => .F64

/-- Modelled from the spec: the associated constant
`ArrayElement::ELEMENT_SIZE_IN_BYTES`, the byte size of each host scalar
type (1 for booleans and 8-bit integers, the natural width in bytes for the
other scalars). -/
def HostType.ELEMENT_SIZE_IN_BYTES : HostType → Nat
  | .bool => 1
  | .i8 => 1
  | .i16 => 2
  | .i32 => 4
  | .i64 => 8
  | .u8 => 1
  | .u16 => 2
  | .u32 => 4
  | .u64 => 8
  | .f16 => 2
  | .bf16 => 2
  | .f32 => 4
  | .f64 => 8

/-- Modelled from the spec: the native literal container (`c_lib::literal`)
is not under src/ (src only declares the `NativeType` trait and the
`native_type!` macro that forwards to the native entry points).  Following
spec section 6, a literal is a shaped array of host values: rank 0 holds one
value, rank 1 holds a contiguous run of values. -/
inductive LiteralModel (α : Type) where
  | r0 (v : α)
  | r1 (vs : List α)
  deriving DecidableEq, Repr

/-- Modelled from the spec: `create_r0(value: T) -> literal_handle`
constructs a rank-0 literal container holding one host value. -/
def create_r0 {α : Type} (v : α) : LiteralModel α :=
  .r0 v

/-- Modelled from the spec: `create_r1(ptr, len) -> literal_handle`
constructs a rank-1 literal container from a run of host values. -/
def create_r1 {α : Type} (vs : List α) : LiteralModel α :=
  .r1 vs

/-- Modelled from the spec: `literal_get_first_element(literal_handle) -> T`
reads back the first scalar element from an existing literal container;
`none` models reading from an empty rank-1 literal. -/
def literal_get_first_element {α : Type} : LiteralModel α → Option α
  | .r0 v => some v
  | .r1 vs => vs.head?

/-- One step of Rust's lossy UTF-8 decoding (`String::from_utf8_lossy`,
substitution of maximal subparts): given the first byte and the remaining
bytes, produce the decoded scalar value (or `0xFFFD`, the replacement
character) and the bytes not yet consumed.  The second-byte conditions for
three- and four-byte sequences transcribe the `(first, next)` arms of
Rust's UTF-8 validation: lead `0xE0` requires `0xA0..=0xBF` and lead `0xF0`
requires `0x90..=0xBF` (rejecting overlong encodings), lead `0xED` requires
`0x80..=0x9F` (rejecting surrogates), and lead `0xF4` requires `0x80..=0x8F`
(rejecting values above `U+10FFFF`). -/
def utf8_decode_step (b : Nat) (bs : List Nat) : Nat × List Nat :=
  if b ≤ 0x7F then (b, bs)
  else if b < 0xC2 then (0xFFFD, bs)
  else if b ≤ 0xDF then
    match bs with
    | [] => (0xFFFD, [])
    | c1 :: bs1 =>
      if 0x80 ≤ c1 ∧ c1 ≤ 0xBF then ((b % 32) * 64 + c1 % 64, bs1)
      else (0xFFFD, c1 :: bs1)
  else if b ≤ 0xEF then
    match bs with
    | [] => (0xFFFD, [])
    | c1 :: bs1 =>
      if (b = 0xE0 ∧ 0xA0 ≤ c1 ∧ c1 ≤ 0xBF) ∨
          (0xE1 ≤ b ∧ b ≤ 0xEC ∧ 0x80 ≤ c1 ∧ c1 ≤ 0xBF) ∨
          (b = 0xED ∧ 0x80 ≤ c1 ∧ c1 ≤ 0x9F) ∨
          (0xEE ≤ b ∧ 0x80 ≤ c1 ∧ c1 ≤ 0xBF) then
        match bs1 with
        | [] => (0xFFFD, [])
        | c2 :: bs2 =>
          if 0x80 ≤ c2 ∧ c2 ≤ 0xBF then
            ((b % 16) * 4096 + (c1 % 64) * 64 + c2 % 64, bs2)
          else (0xFFFD, c2 :: bs2)
      else (0xFFFD, c1 :: bs1)
  else if b ≤ 0xF4 then
    match bs with
    | [] => (0xFFFD, [])
    | c1 :: bs1 =>
      if (b = 0xF0 ∧ 0x90 ≤ c1 ∧ c1 ≤ 0xBF) ∨
          (0xF1 ≤ b ∧ b ≤ 0xF3 ∧ 0x80 ≤ c1 ∧ c1 ≤ 0xBF) ∨
          (b = 0xF4 ∧ 0x80 ≤ c1 ∧ c1 ≤ 0x8F) then
        match bs1 with
        | [] => (0xFFFD, [])
        | c2 :: bs2 =>
          if 0x80 ≤ c2 ∧ c2 ≤ 0xBF then
            match bs2 with
            | [] => (0xFFFD, [])
            | c3 :: bs3 =>
              if 0x80 ≤ c3 ∧ c3 ≤ 0xBF then
                ((b % 8) * 262144 + (c1 % 64) * 4096 + (c2 % 64) * 64 + c3 % 64, bs3)
              else (0xFFFD, c3 :: bs3)
          else (0xFFFD, c2 :: bs2)
      else (0xFFFD, c1 :: bs1)
  else (0xFFFD, bs)

/-- Fuel-indexed driver for the lossy decoder; the fuel is an upper bound on
the number of bytes left and only exists to make the recursion structural. -/
def utf8_lossy_loop : Nat → List Nat → List Nat
  | 0, _ => []
  | _ + 1, [] => []
  | fuel + 1, b :: bs =>
    (utf8_decode_step b bs).1 :: utf8_lossy_loop fuel (utf8_decode_step b bs).2

/-- Rust's `String::from_utf8_lossy` on a byte list, producing the list of
Unicode scalar values of the resulting string. -/
def from_utf8_lossy (bs : List Nat) : List Nat :=
  utf8_lossy_loop bs.length bs

/-- `CStr::from_ptr` semantics on the byte content of a nul-terminated
native allocation: the bytes strictly before the first nul byte. -/
def cstr_bytes (buf : List Nat) : List Nat :=
  buf.takeWhile (fun b => b != 0)

/-- `c_ptr_to_string` from src/src/wrappers/mod.rs, embedded over the byte
content of the native allocation the pointer refers to.  The function reads
the nul-terminated bytes (`CStr::from_ptr`), decodes them lossily
(`to_string_lossy().into_owned()`), and then calls `libc::free` exactly
once; the second component counts the `libc::free` calls the body performs.
The first component is the list of Unicode scalar values of the returned
`String`. -/
def c_ptr_to_string (buf : List Nat) : List Nat × Nat :=
  (from_utf8_lossy (cstr_bytes buf), 1)

/-- A code point is a Unicode scalar value when it is below `0x110000` and
not a surrogate. -/
def is_unicode_scalar (c : Nat) : Prop :=
  c < 0x110000 ∧ ¬(0xD800 ≤ c ∧ c ≤ 0xDFFF)

instance (c : Nat) : Decidable (is_unicode_scalar c) := by
  unfold is_unicode_scalar
  infer_instance

/-- The UTF-8 encoding of one Unicode scalar value. -/
def utf8_encode_char (c : Nat) : List Nat :=
  if c < 0x80 then [c]
  else if c < 0x800 then [0xC0 + c / 64, 0x80 + c % 64]
  else if c < 0x10000 then [0xE0 + c / 4096, 0x80 + c / 64 % 64, 0x80 + c % 64]
  else [0xF0 + c / 262144, 0x80 + c / 4096 % 64, 0x80 + c / 64 % 64, 0x80 + c % 64]

/-- The UTF-8 encoding of a list of Unicode scalar values. -/
def utf8_encode : List Nat → List Nat
  | [] => []
  | c :: cs => utf8_encode_char c ++ utf8_encode cs

end XlaRs

namespace XlaRs


theorem utf8_decode_step_length (b : Nat) (bs : List Nat) :
    (utf8_decode_step b bs).2.length ≤ bs.length := by
  unfold utf8_decode_step
  repeat' split
  all_goals simp
  all_goals omega

theorem utf8_lossy_loop_fuel (n : Nat) : ∀ (m : Nat) (bs : List Nat),
    bs.length ≤ n → bs.length ≤ m → utf8_lossy_loop n bs = utf8_lossy_loop m bs := by
  induction n with
  | zero =>
    intro m bs hn _
    have hbs : bs = [] := List.eq_nil_of_length_eq_zero (Nat.le_zero.mp hn)
    subst hbs
    cases m <;> rfl
  | succ n ih =>
    intro m bs hn hm
    cases bs with
    | nil => cases m <;> rfl
    | cons b bs =>
      cases m with
      | zero => simp at hm
      | succ m =>
        simp only [utf8_lossy_loop]
        have hlen := utf8_decode_step_length b bs
        simp only [List.length_cons, Nat.succ_le_succ_iff] at hn hm
        rw [ih m _ (le_trans hlen hn) (le_trans hlen hm)]

theorem from_utf8_lossy_cons (b : Nat) (bs : List Nat) :
    from_utf8_lossy (b :: bs) =
      (utf8_decode_step b bs).1 :: from_utf8_lossy (utf8_decode_step b bs).2 := by
  unfold from_utf8_lossy
  simp only [List.length_cons, utf8_lossy_loop]
  rw [utf8_lossy_loop_fuel bs.length _ _ (utf8_decode_step_length b bs) le_rfl]



theorem from_utf8_lossy_encode_char (c : Nat) (hs : is_unicode_scalar c) (t : List Nat) :
    from_utf8_lossy (utf8_encode_char c ++ t) = c :: from_utf8_lossy t := by
  obtain ⟨hlt, hsur⟩ := hs
  unfold utf8_encode_char
  by_cases h1 : c < 0x80
  · rw [if_pos h1]
    simp only [List.cons_append, List.nil_append, from_utf8_lossy_cons]
    unfold utf8_decode_step
    rw [if_pos (by omega)]
  · rw [if_neg h1]
    by_cases h2 : c < 0x800
    · rw [if_pos h2]
      simp only [List.cons_append, List.nil_append, from_utf8_lossy_cons]
      unfold utf8_decode_step
      rw [if_neg (by omega), if_neg (by omega), if_pos (by omega)]
      dsimp only
      rw [if_pos (by omega : 0x80 ≤ 0x80 + c % 64 ∧ 0x80 + c % 64 ≤ 0xBF)]
      congr 1
      omega
    · rw [if_neg h2]
      by_cases h3 : c < 0x10000
      · rw [if_pos h3]
        simp only [List.cons_append, List.nil_append, from_utf8_lossy_cons]
        unfold utf8_decode_step
        rw [if_neg (by omega), if_neg (by omega), if_neg (by omega), if_pos (by omega)]
        dsimp only
        rw [if_pos (by omega :
            (0xE0 + c / 4096 = 0xE0 ∧ 0xA0 ≤ 0x80 + c / 64 % 64 ∧ 0x80 + c / 64 % 64 ≤ 0xBF) ∨
            (0xE1 ≤ 0xE0 + c / 4096 ∧ 0xE0 + c / 4096 ≤ 0xEC ∧
              0x80 ≤ 0x80 + c / 64 % 64 ∧ 0x80 + c / 64 % 64 ≤ 0xBF) ∨
            (0xE0 + c / 4096 = 0xED ∧ 0x80 ≤ 0x80 + c / 64 % 64 ∧ 0x80 + c / 64 % 64 ≤ 0x9F) ∨
            (0xEE ≤ 0xE0 + c / 4096 ∧ 0x80 ≤ 0x80 + c / 64 % 64 ∧ 0x80 + c / 64 % 64 ≤ 0xBF)),
          if_pos (by omega : 0x80 ≤ 0x80 + c % 64 ∧ 0x80 + c % 64 ≤ 0xBF)]
        congr 1
        omega
      · rw [if_neg h3]
        simp only [List.cons_append, List.nil_append, from_utf8_lossy_cons]
        unfold utf8_decode_step
        rw [if_neg (by omega), if_neg (by omega), if_neg (by omega), if_neg (by omega),
          if_pos (by omega)]
        dsimp only
        rw [if_pos (by omega :
            (0xF0 + c / 262144 = 0xF0 ∧ 0x90 ≤ 0x80 + c / 4096 % 64 ∧
              0x80 + c / 4096 % 64 ≤ 0xBF) ∨
            (0xF1 ≤ 0xF0 + c / 262144 ∧ 0xF0 + c / 262144 ≤ 0xF3 ∧
              0x80 ≤ 0x80 + c / 4096 % 64 ∧ 0x80 + c / 4096 % 64 ≤ 0xBF) ∨
            (0xF0 + c / 262144 = 0xF4 ∧ 0x80 ≤ 0x80 + c / 4096 % 64 ∧
              0x80 + c / 4096 % 64 ≤ 0x8F)),
          if_pos (by omega : 0x80 ≤ 0x80 + c / 64 % 64 ∧ 0x80 + c / 64 % 64 ≤ 0xBF),
          if_pos (by omega : 0x80 ≤ 0x80 + c % 64 ∧ 0x80 + c % 64 ≤ 0xBF)]
        congr 1
        omega



theorem from_utf8_lossy_encode (cs : List Nat) (h : ∀ c ∈ cs, is_unicode_scalar c) :
    from_utf8_lossy (utf8_encode cs) = cs := by
  induction cs with
  | nil => rfl
  | cons c cs ih =>
    simp only [utf8_encode]
    rw [from_utf8_lossy_encode_char c (h c (by simp)) (utf8_encode cs)]
    rw [ih (fun x hx => h x (by simp [hx]))]

theorem utf8_decode_step_sound (b : Nat) (bs : List Nat) (v : Nat) (rest : List Nat)
    (hstep : utf8_decode_step b bs = (v, rest)) (hv : v ≠ 0xFFFD) :
    is_unicode_scalar v ∧ b :: bs = utf8_encode_char v ++ rest := by
  unfold utf8_decode_step at hstep
  repeat' split at hstep
  all_goals injection hstep with hv2 hr
  all_goals subst hv2
  all_goals subst hr
  all_goals try exact absurd rfl hv
  all_goals refine ⟨by unfold is_unicode_scalar; omega, ?_⟩
  all_goals unfold utf8_encode_char
  all_goals repeat' split
  all_goals
    first
      | (exfalso; omega)
      | (simp only [List.cons_append, List.nil_append, List.cons.injEq]
         repeat' apply And.intro
         all_goals first | rfl | trivial | omega)



theorem utf8_no_replacement_encodable (n : Nat) : ∀ bs : List Nat, bs.length ≤ n →
    0xFFFD ∉ from_utf8_lossy bs →
    ∃ cs, (∀ c ∈ cs, is_unicode_scalar c) ∧ utf8_encode cs = bs := by
  induction n with
  | zero =>
    intro bs hlen _
    have hbs : bs = [] := List.eq_nil_of_length_eq_zero (Nat.le_zero.mp hlen)
    exact ⟨[], by simp, by simp [hbs, utf8_encode]⟩
  | succ n ih =>
    intro bs hlen h
    cases bs with
    | nil => exact ⟨[], by simp, rfl⟩
    | cons b bs =>
      rw [from_utf8_lossy_cons] at h
      simp only [List.mem_cons, not_or] at h
      obtain ⟨h1, h2⟩ := h
      obtain ⟨hs, henc⟩ :=
        utf8_decode_step_sound b bs (utf8_decode_step b bs).1 (utf8_decode_step b bs).2
          rfl (fun he => h1 (he ▸ rfl))
      simp only [List.length_cons, Nat.succ_le_succ_iff] at hlen
      obtain ⟨cs, hcs, hcseq⟩ :=
        ih _ (le_trans (utf8_decode_step_length b bs) hlen) h2
      refine ⟨(utf8_decode_step b bs).1 :: cs, ?_, ?_⟩
      · intro c hc
        rcases List.mem_cons.mp hc with hc | hc
        · exact hc ▸ hs
        · exact hcs c hc
      · simp only [utf8_encode]
        rw [hcseq]
        exact henc.symm



/-- C7: for every host scalar type bound by the `ArrayElement` contract, the
associated byte-size constant `ELEMENT_SIZE_IN_BYTES` equals
`element_size_in_bytes` applied to the associated element type `TY`. -/
theorem arrayElement_size_consistent (h : HostType) :
    h.ELEMENT_SIZE_IN_BYTES = h.TY.element_size_in_bytes := by
  cases h <;> rfl

/-- C8: constructing a rank-0 literal container from a value `v` via
`create_r0` and reading it back via `literal_get_first_element` yields
exactly `v`. -/
theorem create_r0_read_first_roundtrip {α : Type} (v : α) :
    literal_get_first_element (create_r0 v) = some v := rfl

/-- C9: on a native allocation holding the bytes `"abc\0"`,
`c_ptr_to_string` returns the text `"abc"` (scalar values 97, 98, 99) and
performs exactly one `libc::free` call; on every input it performs exactly
one `libc::free` call, regardless of decoding outcome. -/
theorem c_ptr_to_string_abc_free_once :
    c_ptr_to_string [0x61, 0x62, 0x63, 0] = ([0x61, 0x62, 0x63], 1) ∧
    (∀ buf : List Nat, (c_ptr_to_string buf).2 = 1) :=
  ⟨by decide, fun _ => rfl⟩

/-- C10: when the bytes before the nul terminator are valid UTF-8 (the
encoding of a list of Unicode scalar values), `c_ptr_to_string` returns
exactly those scalar values (lossless on valid UTF-8); when they are not
valid UTF-8, the returned text contains the replacement character `U+FFFD`
(and the function still returns normally, as it is total). -/
theorem c_ptr_to_string_utf8 :
    (∀ (buf : List Nat) (cs : List Nat), (∀ c ∈ cs, is_unicode_scalar c) →
        cstr_bytes buf = utf8_encode cs → (c_ptr_to_string buf).1 = cs) ∧
    (∀ buf : List Nat,
        (¬ ∃ cs, (∀ c ∈ cs, is_unicode_scalar c) ∧ utf8_encode cs = cstr_bytes buf) →
        0xFFFD ∈ (c_ptr_to_string buf).1) := by
  constructor
  · intro buf cs hcs heq
    show from_utf8_lossy (cstr_bytes buf) = cs
    rw [heq]
    exact from_utf8_lossy_encode cs hcs
  · intro buf hne
    show 0xFFFD ∈ from_utf8_lossy (cstr_bytes buf)
    by_contra hmem
    exact hne (utf8_no_replacement_encodable (cstr_bytes buf).length _ le_rfl hmem)

theorem c_ptr_to_string_utf8_witness :
    ((∀ c ∈ [0xE9], is_unicode_scalar c) ∧
      cstr_bytes [0xC3, 0xA9, 0] = utf8_encode [0xE9] ∧
      (c_ptr_to_string [0xC3, 0xA9, 0]).1 = [0xE9]) ∧
    ((¬ ∃ cs, (∀ c ∈ cs, is_unicode_scalar c) ∧ utf8_encode cs = cstr_bytes [0x80, 0]) ∧
      0xFFFD ∈ (c_ptr_to_string [0x80, 0]).1) := by
  have hne : ¬ ∃ cs, (∀ c ∈ cs, is_unicode_scalar c) ∧
      utf8_encode cs = cstr_bytes [0x80, 0] := by
    rintro ⟨cs, hv, he⟩
    have hd := from_utf8_lossy_encode cs hv
    rw [he] at hd
    have hcs : cs = [0xFFFD] := by rw [← hd]; decide
    rw [hcs] at he
    exact absurd he (by decide)
  exact ⟨⟨by decide, by decide,
      c_ptr_to_string_utf8.1 [0xC3, 0xA9, 0] [0xE9] (by decide) (by decide)⟩,
    ⟨hne, c_ptr_to_string_utf8.2 [0x80, 0] hne⟩⟩


theorem primitiveType_discriminants_fixed_witness :
    (PrimitiveType.Pred ≠ PrimitiveType.Invalid ∧
      ¬ PrimitiveType.Pred.isStructuralOrInvalid ∧
      ((1 ≤ primitiveTypeDiscriminant PrimitiveType.Pred ∧
          primitiveTypeDiscriminant PrimitiveType.Pred ≤ 12) ∨
        primitiveTypeDiscriminant PrimitiveType.Pred = 15 ∨
        primitiveTypeDiscriminant PrimitiveType.Pred = 16 ∨
        primitiveTypeDiscriminant PrimitiveType.Pred = 18)) ∧
    (PrimitiveType.Tuple ≠ PrimitiveType.Invalid ∧
      PrimitiveType.Tuple.isStructuralOrInvalid ∧
      (primitiveTypeDiscriminant PrimitiveType.Tuple = 13 ∨
        primitiveTypeDiscriminant PrimitiveType.Tuple = 14 ∨
        primitiveTypeDiscriminant PrimitiveType.Tuple = 17)) := by
  constructor
  · exact ⟨by decide, by decide,
      (primitiveType_discriminants_fixed.2.2.2.2.2.2.2.2.2.2.2.2.2.2.2.2.2.2.2.1)
        PrimitiveType.Pred (by decide) (by decide)⟩
  · exact ⟨by decide, by decide,
      (primitiveType_discriminants_fixed.2.2.2.2.2.2.2.2.2.2.2.2.2.2.2.2.2.2.2.2)
        PrimitiveType.Tuple (by decide) (by decide)⟩

theorem primitiveTypeFromInt_exact_witness :
    primitiveTypeFromInt (primitiveTypeDiscriminant PrimitiveType.Pred) =
      some PrimitiveType.Pred ∧
    ((∀ t : PrimitiveType, primitiveTypeDiscriminant t ≠ (42 : Int)) ∧
      primitiveTypeFromInt 42 = none) :=
  ⟨primitiveTypeFromInt_exact.1 PrimitiveType.Pred,
    ⟨by decide, primitiveTypeFromInt_exact.2.2 42 (by decide)⟩⟩

end XlaRs
